import Mathlib

/-!
Shallow embedding of the pgx allocator/value bridge, verified against the
repository sources:
* the typed encode codec (`src/pgrx/src/datum/into.rs`, trait `IntoDatum`);
* the raw memory-context handle (`src/pgrx-pg-sys/src/submodules/mem/raw.rs`);
* the function-call-info argument accessors (`src/pg-bridge/src/fcinfo.rs`).

Machine integers are modelled as `Nat` with explicit bounds where overflow
matters; fallible operations return `Except`/`Option`; the host allocator is
explicit state (a log of allocation requests plus a heap of blocks).
-/

namespace Pgx

/-! ### Postgres type oids

In the source these are `pg_sys::Oid` constants generated from the host's
catalog headers (`pg_type.h`); `pg_sys::Oid` itself is a newtype over `u32`
whose invalid sentinel is 0. -/

/-- Embeds `pg_sys::Oid`: a newtype over `u32` (the wrapped value is kept as a
`Nat`; every constant below is well below `2^32`). -/
structure Oid where
  val : Nat
  deriving DecidableEq, Repr

/-- Embeds `pg_sys::Oid::INVALID` (the zero oid). -/
def Oid.INVALID : Oid := ⟨0⟩

/-- Embeds `pg_sys::Oid::as_u32`. -/
def Oid.as_u32 (self : Oid) : Nat := self.val

def BOOLOID : Oid := ⟨16⟩
def BYTEAOID : Oid := ⟨17⟩
def CHAROID : Oid := ⟨18⟩
def INT8OID : Oid := ⟨20⟩
def INT2OID : Oid := ⟨21⟩
def INT4OID : Oid := ⟨23⟩
def TEXTOID : Oid := ⟨25⟩
def OIDOID : Oid := ⟨26⟩
def FLOAT4OID : Oid := ⟨700⟩
def FLOAT8OID : Oid := ⟨701⟩
def VARCHAROID : Oid := ⟨1043⟩

/-! ### Type tags and the compatibility relation

Embeds the `type_oid` / `is_compatible_with` items of the `IntoDatum`
implementations for the integer primitives (into.rs lines 147–226). -/

namespace i8

/-- Embeds `<i8 as IntoDatum>::type_oid` (the "char" type). -/
def type_oid : Oid := CHAROID

end i8

namespace i16

/-- Embeds `<i16 as IntoDatum>::type_oid` (smallint). -/
def type_oid : Oid := INT2OID

/-- Embeds `<i16 as IntoDatum>::is_compatible_with` (into.rs lines 168–171). -/
def is_compatible_with (other : Oid) : Bool :=
  type_oid == other || i8.type_oid == other

end i16

namespace i32

/-- Embeds `<i32 as IntoDatum>::type_oid` (integer). -/
def type_oid : Oid := INT4OID

/-- Embeds `<i32 as IntoDatum>::is_compatible_with` (into.rs lines 184–187). -/
def is_compatible_with (other : Oid) : Bool :=
  type_oid == other || i8.type_oid == other || i16.type_oid == other

end i32

namespace i64

/-- Embeds `<i64 as IntoDatum>::type_oid` (bigint). -/
def type_oid : Oid := INT8OID

/-- Embeds `<i64 as IntoDatum>::is_compatible_with` (into.rs lines 219–225). -/
def is_compatible_with (other : Oid) : Bool :=
  type_oid == other || i8.type_oid == other || i16.type_oid == other
    || i32.type_oid == other || i64.type_oid == other

end i64

end Pgx

namespace Pgx

/-! ### Datums and the host allocator state

`pg_sys::Datum` is a word-sized value: either a scalar packed in place or a
pointer into host-allocated memory. A varlena pointer is modelled as the
index of its block in the model heap. -/

/-- Embeds `pg_sys::Datum`: a fixed-width scalar packed in place, or a pointer
to an allocated variable-length (varlena) block. -/
inductive Datum where
  | value : Nat → Datum
  | varlenaPtr : Nat → Datum
  deriving DecidableEq, Repr

/-! The host's arena nodes. `MemoryContextData` is the host's struct; only the
node-tag field (`type_`, read by `memory_context_is_valid`) and the node's
identity (`ident`, standing for its address, so that distinct nodes of equal
tag stay distinct) are retained. A `MemoryContext` is a possibly-null pointer
to such a node. -/

/-- Embeds the host's `NodeTag` discriminants that matter to the memory-context
code: the three live-arena kinds plus representative non-arena tags. -/
inductive NodeTag where
  | T_Invalid
  | T_List
  | T_AllocSetContext
  | T_SlabContext
  | T_GenerationContext
  | T_ErrorSaveContext
  deriving DecidableEq, Repr

/-- Embeds `pg_sys::MemoryContextData` (the fields this code reads). -/
structure MemoryContextData where
  type_ : NodeTag
  ident : Nat
  deriving DecidableEq, Repr

/-- Embeds `pg_sys::MemoryContext`, a raw `*mut MemoryContextData`:
`none` is the null pointer. -/
abbrev MemoryContext := Option MemoryContextData

/-- One allocation request made of the host: the arena it was directed at and
the size passed, `none` when the call passed no size. -/
structure AllocRequest where
  arena : MemoryContextData
  size : Option Nat
  deriving DecidableEq, Repr

/-- The contents of a `pg_sys::varattrib_4b` block once written: the 4-byte
length header and the payload bytes. -/
structure Varattrib4b where
  va_header : Nat
  va_data : List Nat
  deriving DecidableEq, Repr

/-- The host allocator as observed by this code: the process-global
`CurrentMemoryContext`, the log of allocation requests made so far, and the
heap of allocated blocks (`none` = allocated but not yet written). -/
structure HostState where
  CurrentMemoryContext : MemoryContextData
  requests : List AllocRequest
  heap : List (Option Varattrib4b)
  deriving DecidableEq, Repr

/-- Embeds `pg_sys::palloc(size)`: requests `size` bytes from
`CurrentMemoryContext` and returns a fresh (uninitialized) block, modelled by
its index in the heap. -/
def palloc (st : HostState) (size : Nat) : HostState × Nat :=
  ({ st with
      requests := st.requests ++ [⟨st.CurrentMemoryContext, some size⟩],
      heap := st.heap ++ [none] },
    st.heap.length)

/-- A concrete initial host state: an AllocSet arena is current, no request
has been made, nothing is allocated. -/
def initState : HostState :=
  ⟨⟨NodeTag.T_AllocSetContext, 0⟩, [], []⟩

/-! ### The raw memory-context handle

Embeds `src/pgrx-pg-sys/src/submodules/mem/raw.rs`. -/

/-- Embeds `memory_context_is_valid(p)` (raw.rs lines 27–36): `p` is non-null
and the node's tag matches one of the live-arena kinds. -/
def memory_context_is_valid (p : MemoryContext) : Bool :=
  match p with
  | none => false
  | some d =>
    match d.type_ with
    | NodeTag.T_AllocSetContext | NodeTag.T_SlabContext
    | NodeTag.T_GenerationContext => true
    | _ => false

/-- Embeds `RawMemCtx` (raw.rs lines 23–26): a wrapper around a `NonNull`
memory-context pointer, so the wrapped pointee is carried directly. -/
structure RawMemCtx where
  ptr : MemoryContextData
  deriving DecidableEq, Repr

/-- The outcome of a failed `debug_assert!`. -/
inductive DebugAssertFailure where
  | assertion_failed
  deriving DecidableEq, Repr

/-- Embeds `RawMemCtx::from_raw(p)` (raw.rs lines 40–45) in a debug build:
`debug_assert!(memory_context_is_valid(p))`, then
`NonNull::new_unchecked(p)`. The `none` arm inside the valid branch models
`new_unchecked`'s undefinedness on null; it is unreachable, as validity
implies non-null. -/
def RawMemCtx.from_raw (p : MemoryContext) : Except DebugAssertFailure RawMemCtx :=
  if memory_context_is_valid p then
    match p with
    | some d => Except.ok ⟨d⟩
    | none => Except.error DebugAssertFailure.assertion_failed
  else
    Except.error DebugAssertFailure.assertion_failed

/-- Embeds the body of `RawMemCtx::alloc(&self, sz)` (raw.rs lines 47–51).
The body is the single call `pg_sys::palloc()` — written with no size
argument at all (it does not even match `palloc`'s declared signature), and
`palloc` draws from the global `CurrentMemoryContext`, not from `self`. The
call is modelled as an allocation request directed at the current context
carrying no size. -/
def RawMemCtx.alloc (self : RawMemCtx) (sz : Nat) (st : HostState) :
    HostState × Nat :=
  ({ st with
      requests := st.requests ++ [⟨st.CurrentMemoryContext, none⟩],
      heap := st.heap ++ [none] },
    st.heap.length)

/-! ### The value codec

Embeds the `IntoDatum` implementations of `src/pgrx/src/datum/into.rs` that
the claims name. -/

/-- The structured error raised when a Rust-side check fails during encoding
(the `expect` panic of the byte-slice encoder, into.rs line 415). -/
inductive RustPanic where
  | encoding_overflow
  deriving DecidableEq, Repr

/-- Embeds `pg_sys::VARHDRSZ`, the host's varlena length-header size
(the size of a 4-byte `int32`). -/
def VARHDRSZ : Nat := 4

/-- The largest value representable in the varlena header's `u32`. -/
def U32_MAX : Nat := 2 ^ 32 - 1

/-- Embeds `<&[u8] as IntoDatum>::into_datum` (into.rs lines 390–428). The
slice is a list of bytes. In order: `len = VARHDRSZ + self.len()`; a `palloc`
of `len` bytes; then the header write `try_into::<u32>(len).expect(..) << 2`
— the `expect` panics exactly when `len` exceeds `u32::MAX` (the `<< 2` is
`u32` arithmetic, so it keeps the low 32 bits) — and the payload copy into
the block; finally the datum pointing at the block. -/
def bytes_into_datum (self : List Nat) (st : HostState) :
    HostState × Except RustPanic (Option Datum) :=
  let len := VARHDRSZ + self.length
  let allocated := palloc st len
  let st1 := allocated.1
  let p := allocated.2
  if len ≤ U32_MAX then
    let va_header := (len <<< 2) % 2 ^ 32
    let st2 := { st1 with heap := st1.heap.set p (some ⟨va_header, self⟩) }
    (st2, Except.ok (some (Datum.varlenaPtr p)))
  else
    (st1, Except.error RustPanic.encoding_overflow)

/-- A concrete oversized input for the byte-slice encoder: `2 ^ 32` zero
bytes, whose encoded length `2 ^ 32 + 4` does not fit the varlena header. -/
def bigInput : List Nat := List.replicate (2 ^ 32) 0

/-- One `IntoDatum` implementation, as the trait declares it (into.rs lines
44–89): an encode that may touch the host allocator, may panic, and may
report "no value" (`none`), plus the type's tag. -/
structure IntoDatumImpl (α : Type) where
  into_datum : α → HostState → HostState × Except RustPanic (Option Datum)
  type_oid : Oid

/-- Embeds `<Option<T> as IntoDatum>::into_datum` (into.rs lines 96–101):
`Some(t)` encodes as `t` does, `None` is the "no value" result. -/
def option_into_datum {α : Type} (I : IntoDatumImpl α) (self : Option α)
    (st : HostState) : HostState × Except RustPanic (Option Datum) :=
  match self with
  | some t => I.into_datum t st
  | none => (st, Except.ok none)

/-- An IEEE-754 single-precision value, carried by its three bit fields. -/
structure F32 where
  sign : Bool
  exponent : Fin (2 ^ 8)
  fraction : Fin (2 ^ 23)
  deriving DecidableEq, Repr

/-- Embeds `f32::to_bits`: the raw IEEE-754 bit pattern, sign bit on top. -/
def F32.to_bits (self : F32) : Nat :=
  (if self.sign then 1 else 0) * 2 ^ 31 + self.exponent.val * 2 ^ 23
    + self.fraction.val

/-- An IEEE-754 double-precision value, carried by its three bit fields. -/
structure F64 where
  sign : Bool
  exponent : Fin (2 ^ 11)
  fraction : Fin (2 ^ 52)
  deriving DecidableEq, Repr

/-- Embeds `f64::to_bits`: the raw IEEE-754 bit pattern, sign bit on top. -/
def F64.to_bits (self : F64) : Nat :=
  (if self.sign then 1 else 0) * 2 ^ 63 + self.exponent.val * 2 ^ 52
    + self.fraction.val

/-- Embeds `<f32 as IntoDatum>::into_datum` (into.rs lines 230–233):
`Some(self.to_bits().into())`, the raw bit pattern zero-extended into the
datum word. -/
def f32_into_datum (self : F32) : Option Datum :=
  some (Datum.value self.to_bits)

/-- Embeds `<f64 as IntoDatum>::into_datum` (into.rs lines 242–245):
`Some(self.to_bits().into())`. -/
def f64_into_datum (self : F64) : Option Datum :=
  some (Datum.value self.to_bits)

/-- Embeds `<pg_sys::Oid as IntoDatum>::into_datum` (into.rs lines 253–260):
the invalid sentinel encodes as the "no value" result, anything else as its
`u32` value. -/
def Oid.into_datum (self : Oid) : Option Datum :=
  if self = Oid.INVALID then none
  else some (Datum.value self.as_u32)

/-- The oid codec lifted to the `IntoDatum` interface shape (its encode is
pure: no allocation, no panic). -/
def oidIntoDatumImpl : IntoDatumImpl Oid :=
  ⟨fun o st => (st, Except.ok o.into_datum), OIDOID⟩

/-! ### Function-call-info argument access

Embeds `src/pg-bridge/src/fcinfo.rs`. A `FunctionCallInfo` is a raw pointer
(`none` = null, on which `as_ref().unwrap()` panics); panics and
out-of-bounds indexing surface as `none` in the outer `Option`. -/

/-- Embeds the pg10/pg11 `FunctionCallInfoData` fields read here: the `arg`
array and the parallel `argnull` flags. -/
structure FunctionCallInfoData where
  arg : List Datum
  argnull : List Bool
  deriving DecidableEq, Repr

/-- Embeds `pg_10_11::pg_arg_is_null` (fcinfo.rs lines 19–21):
`fcinfo.as_ref().unwrap().argnull[num]`. -/
def pg_arg_is_null_10_11 (fcinfo : Option FunctionCallInfoData) (num : Nat) :
    Option Bool :=
  match fcinfo with
  | none => none
  | some fc => fc.argnull.get? num

/-- Embeds `pg_10_11::pg_getarg_datum` (fcinfo.rs lines 24–30): `None` when
the null flag for `num` is set, otherwise the argument datum unchanged. -/
def pg_getarg_datum_10_11 (fcinfo : Option FunctionCallInfoData) (num : Nat) :
    Option (Option Datum) :=
  match pg_arg_is_null_10_11 fcinfo num with
  | none => none
  | some true => some none
  | some false =>
    match fcinfo with
    | none => none
    | some fc => (fc.arg.get? num).map some

/-- Embeds `pg_sys::pg12_specific::NullableDatum`. -/
structure NullableDatum where
  value : Datum
  isnull : Bool
  deriving DecidableEq, Repr

/-- `size_of::<NullableDatum>()` on the host: 16 bytes. -/
def sizeof_NullableDatum : Nat := 16

/-- Embeds the pg12 `FunctionCallInfoBaseData` fields read here: the declared
argument count and the memory behind the flexible `args` array. -/
structure FunctionCallInfoBaseData where
  nargs : Nat
  args : List NullableDatum
  deriving DecidableEq, Repr

/-- Embeds `pg_12::get_nullable_datum` (fcinfo.rs lines 77–87): forms a slice
of `size_of::<NullableDatum>() * nargs` elements over the `args` memory (the
byte length is passed where an element count is expected, so the slice is
oversized; elements past the backing memory are unreadable) and indexes it at
`num`. -/
def get_nullable_datum (fcinfo : Option FunctionCallInfoBaseData) (num : Nat) :
    Option NullableDatum :=
  match fcinfo with
  | none => none
  | some fc =>
    let len := sizeof_NullableDatum * fc.nargs
    (fc.args.take len).get? num

/-- Embeds `pg_12::pg_arg_is_null` (fcinfo.rs lines 58–60). -/
def pg_arg_is_null_12 (fcinfo : Option FunctionCallInfoBaseData) (num : Nat) :
    Option Bool :=
  (get_nullable_datum fcinfo num).map NullableDatum.isnull

/-- Embeds `pg_12::pg_getarg_datum` (fcinfo.rs lines 63–69): `None` when the
argument's `isnull` flag is set, otherwise its `value` (fetched by a second
`get_nullable_datum` call, as in the source). -/
def pg_getarg_datum_12 (fcinfo : Option FunctionCallInfoBaseData) (num : Nat) :
    Option (Option Datum) :=
  match pg_arg_is_null_12 fcinfo num with
  | none => none
  | some true => some none
  | some false => (get_nullable_datum fcinfo num).map fun nd => some nd.value

/-! ### Claims about the compatibility relation -/

/-- C3: the 32-bit integer type's `is_compatible_with` returns true for the
8-bit integer tag (CHAROID) and the 16-bit integer tag (INT2OID), and false
for the 64-bit integer tag (INT8OID). -/
theorem i32_is_compatible_with_spec :
    i32.is_compatible_with CHAROID = true
      ∧ i32.is_compatible_with INT2OID = true
      ∧ i32.is_compatible_with INT8OID = false := by
  decide

/-- C8: the compatibility relation is one-directional, not symmetric: an i32
value is accepted where a 16-bit integer (INT2OID) is expected, but an i16
value is not accepted where a 32-bit integer (INT4OID) is expected. -/
theorem is_compatible_with_not_symmetric :
    i32.is_compatible_with INT2OID = true
      ∧ i16.is_compatible_with INT4OID = false := by
  decide

/-! ### Claims about the raw memory-context handle -/

/-- C5: a memory-context pointer is judged valid by
`memory_context_is_valid` if and only if it points to a node whose tag is one
of the recognized live-arena kinds (AllocSet, Slab or Generation context). -/
theorem memory_context_is_valid_iff (p : MemoryContext) :
    memory_context_is_valid p = true ↔
      ∃ d, p = some d
        ∧ (d.type_ = NodeTag.T_AllocSetContext
            ∨ d.type_ = NodeTag.T_SlabContext
            ∨ d.type_ = NodeTag.T_GenerationContext) := by
  cases p with
  | none => simp [memory_context_is_valid]
  | some d =>
    obtain ⟨t, i⟩ := d
    cases t <;> simp [memory_context_is_valid]

/-- C5 at concrete inputs: a live AllocSet node passes the check, the null
pointer and a non-arena node do not. -/
theorem memory_context_is_valid_iff_witness :
    memory_context_is_valid (some ⟨NodeTag.T_AllocSetContext, 5⟩) = true
      ∧ memory_context_is_valid (none : MemoryContext) = false := by
  refine ⟨(memory_context_is_valid_iff (some ⟨NodeTag.T_AllocSetContext, 5⟩)).mpr
      ⟨⟨NodeTag.T_AllocSetContext, 5⟩, rfl, Or.inl rfl⟩, ?_⟩
  decide

/-- C6: in a debug build, `RawMemCtx::from_raw(p)` assert-fails on a pointer
that fails the validity check, and on a pointer that passes it the assertion
holds and the returned handle wraps exactly the node `p` points to. -/
theorem from_raw_debug_check (p : MemoryContext) :
    (memory_context_is_valid p = false →
      RawMemCtx.from_raw p = Except.error DebugAssertFailure.assertion_failed)
      ∧ (∀ d, p = some d → memory_context_is_valid p = true →
          RawMemCtx.from_raw p = Except.ok ⟨d⟩) := by
  constructor
  · intro h
    simp [RawMemCtx.from_raw, h]
  · intro d hd h
    subst hd
    simp [RawMemCtx.from_raw, h]

/-- C6 at concrete inputs: the null pointer and a non-arena node assert-fail,
a live AllocSet node yields the handle wrapping it. -/
theorem from_raw_debug_check_witness :
    RawMemCtx.from_raw none = Except.error DebugAssertFailure.assertion_failed
      ∧ RawMemCtx.from_raw (some ⟨NodeTag.T_List, 3⟩)
          = Except.error DebugAssertFailure.assertion_failed
      ∧ RawMemCtx.from_raw (some ⟨NodeTag.T_AllocSetContext, 7⟩)
          = Except.ok ⟨⟨NodeTag.T_AllocSetContext, 7⟩⟩ := by
  refine ⟨(from_raw_debug_check none).1 (by decide),
    (from_raw_debug_check (some ⟨NodeTag.T_List, 3⟩)).1 (by decide),
    (from_raw_debug_check (some ⟨NodeTag.T_AllocSetContext, 7⟩)).2
      ⟨NodeTag.T_AllocSetContext, 7⟩ rfl (by decide)⟩

/-- C2: the body of `RawMemCtx::alloc(&self, sz)` ignores both the handle and
the requested size — any two handles and any two sizes produce the identical
call, and the request it makes of the host names `CurrentMemoryContext` (not
the wrapped arena) and carries no size. The claim that it requests exactly
`sz` bytes from the arena the handle wraps fails. -/
theorem alloc_ignores_handle_and_size
    (self self2 : RawMemCtx) (sz sz2 : Nat) (st : HostState) :
    RawMemCtx.alloc self sz st = RawMemCtx.alloc self2 sz2 st
      ∧ (RawMemCtx.alloc self sz st).1.requests
          = st.requests ++ [⟨st.CurrentMemoryContext, none⟩] :=
  ⟨rfl, rfl⟩

/-! ### Claims about the value codec -/

/-- C4: for every codec implementation, encoding `none` through the `Option`
implementation yields the distinguished "no value" result, leaves the host
allocator state untouched (no allocation) and raises no signal, while
encoding `some t` is exactly `t`'s own encoding. -/
theorem option_into_datum_null_spec {α : Type} (I : IntoDatumImpl α)
    (st : HostState) :
    option_into_datum I none st = (st, Except.ok none)
      ∧ ∀ t : α, option_into_datum I (some t) st = I.into_datum t st :=
  ⟨rfl, fun _ => rfl⟩

/-- The standard sign/exponent/fraction bit packing is injective: equal
packed words have equal fields. -/
theorem ieee_pack_injective (eb fb : Nat) (s s2 : Bool) (e e2 f f2 : Nat)
    (he : e < 2 ^ eb) (he2 : e2 < 2 ^ eb) (hf : f < 2 ^ fb) (hf2 : f2 < 2 ^ fb)
    (h : (if s then 1 else 0) * (2 ^ eb * 2 ^ fb) + e * 2 ^ fb + f
        = (if s2 then 1 else 0) * (2 ^ eb * 2 ^ fb) + e2 * 2 ^ fb + f2) :
    s = s2 ∧ e = e2 ∧ f = f2 := by
  have key : ∀ (a x y : Nat), y < 2 ^ fb →
      (a * (2 ^ eb * 2 ^ fb) + x * 2 ^ fb + y) % 2 ^ fb = y
        ∧ (a * (2 ^ eb * 2 ^ fb) + x * 2 ^ fb + y) / 2 ^ fb = a * 2 ^ eb + x := by
    intro a x y hy
    have hrw : a * (2 ^ eb * 2 ^ fb) + x * 2 ^ fb + y
        = 2 ^ fb * (a * 2 ^ eb + x) + y := by ring
    refine ⟨?_, ?_⟩
    · rw [hrw, Nat.mul_add_mod]
      exact Nat.mod_eq_of_lt hy
    · rw [hrw, Nat.mul_add_div (by positivity), Nat.div_eq_of_lt hy,
        Nat.add_zero]
  have hmod : f = f2 := by
    have hc := congrArg (fun x => x % 2 ^ fb) h
    simp only [(key _ e f hf).1, (key _ e2 f2 hf2).1] at hc
    exact hc
  have hdiv : (if s then 1 else 0) * 2 ^ eb + e
      = (if s2 then 1 else 0) * 2 ^ eb + e2 := by
    have hc := congrArg (fun x => x / 2 ^ fb) h
    simp only [(key _ e f hf).2, (key _ e2 f2 hf2).2] at hc
    exact hc
  cases s <;> cases s2 <;> simp only [if_true, if_false] at hdiv
  · exact ⟨rfl, by omega, hmod⟩
  · exfalso
    simp at hdiv
    omega
  · exfalso
    simp at hdiv
    omega
  · exact ⟨rfl, by omega, hmod⟩

/-- C7: encoding an f32 yields Some of a datum holding exactly its raw
IEEE-754 bit pattern, likewise for f64, and the encoding is exact: it is
lossless (injective), so no numeric conversion or re-parsing is involved. -/
theorem float_into_datum_bit_pattern :
    (∀ v : F32, f32_into_datum v = some (Datum.value v.to_bits))
      ∧ (∀ v : F64, f64_into_datum v = some (Datum.value v.to_bits))
      ∧ (∀ v w : F32, f32_into_datum v = f32_into_datum w → v = w)
      ∧ (∀ v w : F64, f64_into_datum v = f64_into_datum w → v = w) := by
  refine ⟨fun v => rfl, fun v => rfl, fun v w h => ?_, fun v w h => ?_⟩
  · simp only [f32_into_datum, Option.some.injEq, Datum.value.injEq] at h
    obtain ⟨s, e, f⟩ := v
    obtain ⟨s2, e2, f2⟩ := w
    simp only [F32.to_bits] at h
    have h' : (if s then 1 else 0) * (2 ^ 8 * 2 ^ 23) + e.val * 2 ^ 23 + f.val
        = (if s2 then 1 else 0) * (2 ^ 8 * 2 ^ 23) + e2.val * 2 ^ 23
            + f2.val := by
      norm_num
      norm_num at h
      exact h
    obtain ⟨hs, he, hf⟩ := ieee_pack_injective 8 23 s s2 e.val e2.val f.val
      f2.val e.isLt e2.isLt f.isLt f2.isLt h'
    simp only [F32.mk.injEq]
    exact ⟨hs, Fin.ext he, Fin.ext hf⟩
  · simp only [f64_into_datum, Option.some.injEq, Datum.value.injEq] at h
    obtain ⟨s, e, f⟩ := v
    obtain ⟨s2, e2, f2⟩ := w
    simp only [F64.to_bits] at h
    have h' : (if s then 1 else 0) * (2 ^ 11 * 2 ^ 52) + e.val * 2 ^ 52
          + f.val
        = (if s2 then 1 else 0) * (2 ^ 11 * 2 ^ 52) + e2.val * 2 ^ 52
            + f2.val := by
      norm_num
      norm_num at h
      exact h
    obtain ⟨hs, he, hf⟩ := ieee_pack_injective 11 52 s s2 e.val e2.val f.val
      f2.val e.isLt e2.isLt f.isLt f2.isLt h'
    simp only [F64.mk.injEq]
    exact ⟨hs, Fin.ext he, Fin.ext hf⟩

/-- C9: the invalid oid sentinel encodes to the "no value" result — at the
codec interface it is indistinguishable from encoding a SQL null through the
`Option` implementation — while every other oid encodes to Some of its
wrapped `u32` value. -/
theorem oid_into_datum_invalid_is_null :
    Oid.into_datum Oid.INVALID = none
      ∧ (∀ st : HostState,
          oidIntoDatumImpl.into_datum Oid.INVALID st
            = option_into_datum oidIntoDatumImpl none st)
      ∧ (∀ o : Oid, o ≠ Oid.INVALID →
          Oid.into_datum o = some (Datum.value o.as_u32)) := by
  refine ⟨by simp [Oid.into_datum], fun st => ?_, fun o h => ?_⟩
  · simp [oidIntoDatumImpl, option_into_datum, Oid.into_datum]
  · simp [Oid.into_datum, h]

/-- C1 as amended: on every byte slice whose encoded length (payload plus the
4-byte header) exceeds the varlena header's `u32`, the encoder reports the
overflow error and never returns a (truncated or other) datum — but only
after having requested the allocation of the full encoded length from the
current arena; the block stays unwritten. -/
theorem bytes_into_datum_overflow (self : List Nat) (st : HostState)
    (h : U32_MAX < VARHDRSZ + self.length) :
    bytes_into_datum self st
      = ({ st with
            requests := st.requests
              ++ [⟨st.CurrentMemoryContext, some (VARHDRSZ + self.length)⟩],
            heap := st.heap ++ [none] },
          Except.error RustPanic.encoding_overflow) := by
  simp only [bytes_into_datum, palloc]
  rw [if_neg (by omega)]

/-- The oversized input's length, kept as a lemma so no tactic ever builds
the list itself. -/
theorem bigInput_length : bigInput.length = 2 ^ 32 := by
  simp only [bigInput, List.length_replicate]

/-- C1 amended, at a concrete input: a slice of `2 ^ 32` zero bytes makes the
encoder request `2 ^ 32 + 4` bytes and then report the overflow error. -/
theorem bytes_into_datum_overflow_witness :
    bytes_into_datum bigInput initState
      = (⟨initState.CurrentMemoryContext,
            [⟨initState.CurrentMemoryContext, some (VARHDRSZ + 2 ^ 32)⟩],
            [none]⟩,
          Except.error RustPanic.encoding_overflow) := by
  have h := bytes_into_datum_overflow bigInput initState
    (by rw [bigInput_length]; norm_num [U32_MAX, VARHDRSZ])
  rw [h, bigInput_length]
  rfl

/-- C1 as claimed is false: on the slice of `2 ^ 32` zero bytes the encoder
does report the overflow error, yet the allocation request log is no longer
what it was before the call — a (full-size) allocation is performed before
the error is reported, refuting "performs no partial allocation before
reporting it". -/
theorem bytes_into_datum_overflow_counterexample :
    (bytes_into_datum bigInput initState).2
        = Except.error RustPanic.encoding_overflow
      ∧ ¬ (bytes_into_datum bigInput initState).1.requests
          = initState.requests := by
  have h : bytes_into_datum bigInput initState
      = (⟨initState.CurrentMemoryContext,
            [⟨initState.CurrentMemoryContext, some (VARHDRSZ + 2 ^ 32)⟩],
            [none]⟩,
          Except.error RustPanic.encoding_overflow) := by
    simp only [bytes_into_datum, palloc, bigInput_length]
    rw [if_neg (by norm_num [U32_MAX, VARHDRSZ])]
    rfl
  rw [h]
  refine ⟨rfl, ?_⟩
  simp [initState]

/-! ### Claims about function-call-info argument access -/

/-- C10: in both host versions, `pg_getarg_datum` yields the null result
exactly when the host's null flag for the argument is set, and otherwise
yields the argument's datum unchanged; the decision reads only the flag. -/
theorem pg_getarg_datum_null_flag
    (fc : FunctionCallInfoData) (num : Nat)
    (h1 : num < fc.argnull.length) (h2 : num < fc.arg.length)
    (fc12 : FunctionCallInfoBaseData) (n12 : Nat)
    (h3 : n12 < sizeof_NullableDatum * fc12.nargs)
    (h4 : n12 < fc12.args.length) :
    pg_getarg_datum_10_11 (some fc) num
        = some (if fc.argnull.get ⟨num, h1⟩ then none
            else some (fc.arg.get ⟨num, h2⟩))
      ∧ pg_getarg_datum_12 (some fc12) n12
          = some (if (fc12.args.get ⟨n12, h4⟩).isnull then none
              else some ((fc12.args.get ⟨n12, h4⟩).value)) := by
  constructor
  · simp only [pg_getarg_datum_10_11, pg_arg_is_null_10_11]
    rw [List.get?_eq_get h1]
    cases hb : fc.argnull.get ⟨num, h1⟩ <;>
      simp [hb, List.get?_eq_get h2]
  · have hnd : get_nullable_datum (some fc12) n12
        = some (fc12.args.get ⟨n12, h4⟩) := by
      simp only [get_nullable_datum]
      rw [List.get?_take h3, List.get?_eq_get h4]
    simp only [pg_getarg_datum_12, pg_arg_is_null_12, hnd]
    cases hb : (fc12.args.get ⟨n12, h4⟩).isnull <;>
      simp only [List.get_eq_getElem] at hb <;> simp [hb]

/-- C10 at concrete inputs: a non-null argument comes back unchanged
(pg10/11 record) and an argument whose null flag is set comes back as the
null result (pg12 record). -/
theorem pg_getarg_datum_null_flag_witness :
    pg_getarg_datum_10_11 (some ⟨[Datum.value 42], [false]⟩) 0
        = some (some (Datum.value 42))
      ∧ pg_getarg_datum_12 (some ⟨1, [⟨Datum.value 7, true⟩]⟩) 0
          = some none := by
  have h := pg_getarg_datum_null_flag ⟨[Datum.value 42], [false]⟩ 0
    (by decide) (by decide) ⟨1, [⟨Datum.value 7, true⟩]⟩ 0
    (by decide) (by decide)
  exact ⟨by simpa using h.1, by simpa using h.2⟩

end Pgx
